import Mathlib

/-!
Verification development for the `manga_to_pdf` image-to-PDF converter
(package `internal/converter` plus the HTTP handler in package `api`).

The Go code is shallowly embedded: byte streams become `Option ByteData`
(`none` models a nil reader), the external image codecs (JPEG/PNG/WebP
decode and encode, out of scope per the design) become an explicit `Codec`
oracle, the HTTP layer becomes an `HTTPResponse` oracle, and the
cooperative cancellation context becomes explicit booleans sampled at the
same program points where the Go code checks `ctx.Done()` / `ctx.Err()`.
The nondeterministic scheduling of the worker goroutines in
`processImagesConcurrently` is captured by a `Fate` per launched goroutine
(which of the code's cancellation checks fired for it) together with the
order in which the collector receives results from the channel.
Resource handling (the `Close` calls on an image source's reader) is made
observable by returning a count of the `Close` calls a function performs
on that reader.
-/

namespace MangaToPDF

/-- Raw bytes of an image stream or encoded buffer. -/
abbrev ByteData := List Nat

/-- Error values of the converter package.  `canceled` models
`context.Canceled` (the distinguished cancellation error), the next two
model the package-level sentinel errors, and `msg` models the various
`fmt.Errorf` wrapped errors. -/
inductive ConvError
  | canceled
  | noSupportedImages
  | unsupportedContentType
  | msg (s : String)
deriving Repr, DecidableEq

/-- `converter.ImageSource`: one image to be processed.  `reader = none`
models a nil `io.ReadCloser`. -/
structure ImageSource where
  originalFilename : String := ""
  reader : Option ByteData := none
  url : String := ""
  contentType : String := ""
  index : Int := 0
deriving Repr, DecidableEq

/-- `converter.ProcessedImage`: the normalization result for one image.
The Go zero value has `Index = 0`, empty strings and nil fields, matching
the field defaults here. -/
structure ProcessedImage where
  index : Int := 0
  originalFilename : String := ""
  error : Option ConvError := none
  reader : Option ByteData := none
  width : Nat := 0
  height : Nat := 0
  imageTypeForPDF : String := ""
deriving Repr, DecidableEq

/-- `converter.Config`. -/
structure Config where
  jpegQuality : Int := 90
  numWorkers : Int := 1
  outputFilename : String := "converted.pdf"
deriving Repr, DecidableEq

/-- `converter.NewDefaultConfig`; `numCPU` stands for `runtime.NumCPU()`. -/
def NewDefaultConfig (numCPU : Int) : Config :=
  { jpegQuality := 90, numWorkers := numCPU, outputFilename := "converted.pdf" }

/-- A decoded pixel buffer as far as the converter observes it: the format
string reported by `image.Decode`/`image.DecodeConfig`, the pixel
dimensions, and whether the pixel type is one of the 16-bit-per-channel
representations (`image.Gray16`, `image.NRGBA64`, `image.RGBA64`). -/
structure DecodedImage where
  format : String
  width : Nat
  height : Nat
  depth16 : Bool
deriving Repr, DecidableEq

/-- Oracle for the external image codecs (out of scope per the design,
specified only at their interface): `decodeConfig` models
`image.DecodeConfig` (header-only decode), `decode` models `image.Decode`,
and the encoders model `imaging.Encode` with the JPEG one taking the
configured quality.  `none` models a decode/encode error. -/
structure Codec where
  decodeConfig : ByteData → Option DecodedImage
  decode : ByteData → Option DecodedImage
  encodeJPEG : Int → DecodedImage → Option ByteData
  encodePNG : DecodedImage → Option ByteData

/-- `imaging.Clone`: converts any pixel representation to 8-bit-per-channel
NRGBA, preserving dimensions. -/
def clone8 (img : DecodedImage) : DecodedImage := { img with depth16 := false }

/-- The direct (no re-encoding) path of `processSingleImage` for declared
`image/jpeg` / `image/png` sources: read the whole stream, decode just the
config for dimensions, and keep the raw bytes as the payload. -/
def processDirect (codec : Codec) (base : ProcessedImage) (data : ByteData)
    (t : String) : ProcessedImage :=
  match codec.decodeConfig data with
  | none => { base with error := some (.msg ("could not decode image config for " ++ base.originalFilename)) }
  | some c => { base with reader := some data, width := c.width, height := c.height, imageTypeForPDF := t }

/-- The `image/webp` path of `processSingleImage`: fully decode, convert a
16-bit image to 8-bit NRGBA, re-encode as JPEG at the configured quality. -/
def processWebp (codec : Codec) (cfg : Config) (base : ProcessedImage)
    (data : ByteData) : ProcessedImage :=
  match codec.decode data with
  | none => { base with error := some (.msg ("could not decode webp image " ++ base.originalFilename)) }
  | some img0 =>
    let img := if img0.depth16 then clone8 img0 else img0
    match codec.encodeJPEG cfg.jpegQuality img with
    | none => { base with error := some (.msg ("could not re-encode webp " ++ base.originalFilename ++ " to jpg")) }
    | some buf => { base with reader := some buf, width := img.width, height := img.height, imageTypeForPDF := "JPG" }

/-- The fallback path of `processSingleImage` for unknown declared content
types: generic `image.Decode`, then re-encode according to the detected
format (JPEG and PNG are re-encoded into a buffer, WebP goes through the
same 16-bit conversion and JPEG re-encode as the declared-WebP path). -/
def processUnknown (codec : Codec) (cfg : Config) (base : ProcessedImage)
    (data : ByteData) : ProcessedImage :=
  match codec.decode data with
  | none => { base with error := some (.msg ("could not decode image (unknown content type) " ++ base.originalFilename)) }
  | some img =>
    if img.format = "jpeg" then
      match codec.encodeJPEG cfg.jpegQuality img with
      | none => { base with error := some (.msg ("could not re-encode " ++ base.originalFilename ++ " to jpg")) }
      | some buf => { base with reader := some buf, width := img.width, height := img.height, imageTypeForPDF := "JPG" }
    else if img.format = "png" then
      match codec.encodePNG img with
      | none => { base with error := some (.msg ("could not re-encode " ++ base.originalFilename ++ " to png")) }
      | some buf => { base with reader := some buf, width := img.width, height := img.height, imageTypeForPDF := "PNG" }
    else if img.format = "webp" then
      let img2 := if img.depth16 then clone8 img else img
      match codec.encodeJPEG cfg.jpegQuality img2 with
      | none => { base with error := some (.msg ("could not re-encode " ++ base.originalFilename ++ " to JPG")) }
      | some buf => { base with reader := some buf, width := img2.width, height := img2.height, imageTypeForPDF := "JPG" }
    else
      { base with error := some (.msg ("unsupported image format " ++ img.format ++ " for " ++ base.originalFilename)) }

/-- `converter.processSingleImage`.  `ctxDone` is the sample of
`ctx.Done()` taken by the `select` at the top of the function.  The second
component counts how many times the function `Close`d the source's reader:
the early-cancellation branch closes it explicitly, the nil-reader branch
returns without a close, and every other branch closes it exactly once via
the deferred `source.Reader.Close()`. -/
def processSingleImage (codec : Codec) (ctxDone : Bool) (cfg : Config)
    (source : ImageSource) : ProcessedImage × Nat :=
  if ctxDone then
    ({ index := source.index, originalFilename := source.originalFilename,
       error := some .canceled },
     if source.reader.isSome then 1 else 0)
  else
    match source.reader with
    | none =>
      ({ index := source.index, originalFilename := source.originalFilename,
         error := some (.msg "image reader is nil") }, 0)
    | some data =>
      let base : ProcessedImage :=
        { index := source.index, originalFilename := source.originalFilename }
      let res :=
        if source.contentType = "image/jpeg" ∨ source.contentType = "image/jpg" then
          processDirect codec base data "JPG"
        else if source.contentType = "image/png" then
          processDirect codec base data "PNG"
        else if source.contentType = "image/webp" then
          processWebp codec cfg base data
        else
          processUnknown codec cfg base data
      (res, 1)

/-- Which of the coordinator's cancellation checks fired for one launched
worker goroutine: `preSem` models `ctx.Done()` winning the select against
the semaphore acquisition, `preProc` the re-check after acquiring a slot,
and `run entryDone sendCancelled` the goroutine that invoked
`processSingleImage` (whose own entry check saw `entryDone`) and then
either published its result normally (`sendCancelled = false`) or had
`ctx.Done()` win the publishing select (`sendCancelled = true`). -/
inductive Fate
  | preSem
  | preProc
  | run (entryDone : Bool) (sendCancelled : Bool)
deriving Repr, DecidableEq

/-- The cancellation result the coordinator synthesizes for a source. -/
def cancelResult (src : ImageSource) : ProcessedImage :=
  { index := src.index, originalFilename := src.originalFilename,
    error := some .canceled }

/-- The single result a launched worker goroutine publishes on the result
channel, as a function of its `Fate`.  On the send-time cancellation path
the code sets `Error` (when it was nil) and closes the reader, but leaves
the `Reader` field populated in the struct it still sends. -/
def workerResult (codec : Codec) (cfg : Config) (src : ImageSource) :
    Fate → ProcessedImage
  | .preSem => cancelResult src
  | .preProc => cancelResult src
  | .run d s =>
    let r := (processSingleImage codec d cfg src).1
    if s then
      (if r.error = none then { r with error := some .canceled } else r)
    else r

/-- How many worker goroutines the launch loop actually started:
all of them, unless the loop's `ctx.Done()` check fired at iteration `k`. -/
def launchedCount (n : Nat) (cancelAt : Option Nat) : Nat :=
  match cancelAt with
  | none => n
  | some k => min k n

/-- The `results` slice right after the launch loop: zero values, except
that when the loop observed cancellation at iteration `k < n` it marked
every position from `k` on with a synthesized cancellation result (the
`results[j].OriginalFilename == ""` guard always passes at this point
because nothing else has written to the slice yet). -/
def initialSlots (sources : List ImageSource) (cancelAt : Option Nat) :
    List ProcessedImage :=
  match cancelAt with
  | none => sources.map fun _ => {}
  | some k =>
    if k < sources.length then
      (List.range sources.length).map fun j =>
        if j < k then {} else cancelResult (sources.getD j {})
    else sources.map fun _ => {}

/-- The loop `for i := range results { results[i].Index = -1 }` that marks
every slot as not-yet-filled before collection. -/
def placeholder (slots : List ProcessedImage) : List ProcessedImage :=
  slots.map fun s => { s with index := -1 }

/-- The collection loop: results are received from the channel (in the
order `order` of goroutine positions) and stored at `results[res.Index]`
when that index is in bounds; out-of-bounds indices are dropped. -/
def collectResults (resOf : Nat → ProcessedImage) (order : List Nat)
    (slots : List ProcessedImage) : List ProcessedImage :=
  order.foldl
    (fun acc p =>
      if 0 ≤ (resOf p).index ∧ (resOf p).index < (acc.length : Int) then
        acc.set (resOf p).index.toNat (resOf p)
      else acc)
    slots

/-- One step of the defensive reconciliation pass over all sources: an
unfilled position (placeholder index `-1`, or empty original filename) is
replaced by a synthesized cancellation result; a filled position whose
result has no error gets the cancellation error attached and its reader
nullified. -/
def reconcileOne (slots : List ProcessedImage) (src : ImageSource) :
    List ProcessedImage :=
  if 0 ≤ src.index ∧ src.index < (slots.length : Int) then
    let j := src.index.toNat
    let s := slots.getD j {}
    if s.index = -1 ∨ s.originalFilename = "" then
      slots.set j (cancelResult src)
    else if s.error = none then
      slots.set j { s with error := some .canceled, reader := none }
    else slots
  else slots

/-- The reconciliation pass (runs only when `ctx.Err() != nil`). -/
def reconcile (slots : List ProcessedImage) (sources : List ImageSource) :
    List ProcessedImage :=
  sources.foldl reconcileOne slots

/-- `converter.processImagesConcurrently`.  The scheduling nondeterminism
is explicit: `cancelAt` is the launch-loop iteration (if any) at which the
loop's cancellation check fired, `fates p` is the fate of the goroutine
launched for position `p`, `recvOrder` is the order in which the collector
received the published results (the positions of their goroutines), and
`ctxErrAtEnd` is the sample of `ctx.Err() != nil` guarding the
reconciliation pass. -/
def processImagesConcurrently (codec : Codec) (cfg : Config)
    (sources : List ImageSource) (cancelAt : Option Nat)
    (fates : Nat → Fate) (recvOrder : List Nat) (ctxErrAtEnd : Bool) :
    List ProcessedImage :=
  if sources.length = 0 then []
  else
    let resOf : Nat → ProcessedImage := fun p =>
      workerResult codec cfg (sources.getD p {}) (fates p)
    let slots1 := placeholder (initialSlots sources cancelAt)
    let slots2 := collectResults resOf recvOrder slots1
    if ctxErrAtEnd then reconcile slots2 sources else slots2

/-- Insertion of a result into a list sorted by `index`, placing it before
the first element with an `index` that is not smaller.  Folding this over
the input from the right reproduces the stable sort
`sort.SliceStable(processedImages, func(i, j) { return [i].Index < [j].Index })`:
elements with equal `index` keep their original relative order. -/
def insertByIndex (a : ProcessedImage) : List ProcessedImage → List ProcessedImage
  | [] => [a]
  | x :: xs => if a.index ≤ x.index then a :: x :: xs else x :: insertByIndex a xs

/-- The stable sort by `Index` at the top of `generatePDFFromProcessedImages`. -/
def sortByIndex (l : List ProcessedImage) : List ProcessedImage :=
  l.foldr insertByIndex []

/-- The page-adding loop of `generatePDFFromProcessedImages`, over the
sorted results.  `genCancelAt` is the first loop iteration at which the
per-iteration `ctx.Done()` check fired (the loop then returns with the
cancellation flag); `pageFail i` models the gofpdf layer rejecting the
page add / image registration / image placement at iteration `i` (the code
clears the error and skips just that image).  Results carrying an error or
a nil reader are skipped.  Returns the embedded pages in order and whether
the loop was cut short by cancellation. -/
def genLoop (genCancelAt : Option Nat) (pageFail : Nat → Bool) :
    Nat → List ProcessedImage → List ProcessedImage →
    List ProcessedImage × Bool
  | _, [], acc => (acc, false)
  | i, r :: rest, acc =>
    if (match genCancelAt with | some k => decide (k ≤ i) | none => false) then
      (acc, true)
    else if r.error.isSome then genLoop genCancelAt pageFail (i + 1) rest acc
    else if r.reader = none then genLoop genCancelAt pageFail (i + 1) rest acc
    else if pageFail i then genLoop genCancelAt pageFail (i + 1) rest acc
    else genLoop genCancelAt pageFail (i + 1) rest (acc ++ [r])

/-- Outcome of the assembler: the `hasContent` flag, the returned error,
the pages embedded into the document in order, and the pages serialized to
the output writer (`none` when nothing was written). -/
structure GenResult where
  hasContent : Bool
  error : Option ConvError
  pages : List ProcessedImage
  written : Option (List ProcessedImage)
deriving Repr, DecidableEq

/-- `converter.generatePDFFromProcessedImages`.  `doneAfterLoop` is the
`ctx.Done()` sample taken after the loop and before writing the output;
`doneAtNoContent` is the later `ctx.Err() != nil` sample on the no-content
branch; `outputOk` models `pdf.Output(writer)` succeeding.  The per-image
gofpdf failures are always cleared inside the loop, so the post-loop
`pdf.Err()` check never fires. -/
def generatePDFFromProcessedImages (processedImages : List ProcessedImage)
    (genCancelAt : Option Nat) (pageFail : Nat → Bool)
    (doneAfterLoop : Bool) (doneAtNoContent : Bool) (outputOk : Bool) :
    GenResult :=
  let sorted := sortByIndex processedImages
  let out := genLoop genCancelAt pageFail 0 sorted []
  let pages := out.1
  let hasContent := !pages.isEmpty
  if out.2 then ⟨hasContent, some .canceled, pages, none⟩
  else if doneAfterLoop then ⟨hasContent, some .canceled, pages, none⟩
  else if hasContent then
    if outputOk then ⟨true, none, pages, some pages⟩
    else ⟨true, some (.msg "could not write PDF to writer"), pages, none⟩
  else if doneAtNoContent then ⟨false, some .canceled, pages, none⟩
  else ⟨false, none, pages, none⟩

/-- The filter at the top of `ConvertToPDF`: a source is kept unless it has
neither a reader nor a URL. -/
def usableSource (s : ImageSource) : Bool :=
  !(s.reader = none && s.url = "")

/-- The `ctx.Done()` / `ctx.Err()` samples taken by one run of
`ConvertToPDF` and its callees, in program order. -/
structure CancelOracle where
  atEntry : Bool := false
  coordCancelAt : Option Nat := none
  ctxErrAfterCollect : Bool := false
  afterCoord : Bool := false
  genCancelAt : Option Nat := none
  doneAfterLoop : Bool := false
  doneAtNoContent : Bool := false
  finalCtxErr : Bool := false

/-- The final outcome of `ConvertToPDF`: the `hasContent` flag, the
returned error, and what was written to the output writer (`none` means
zero bytes were written). -/
structure ConvertResult where
  hasContent : Bool
  error : Option ConvError
  written : Option (List ProcessedImage)
deriving Repr, DecidableEq

/-- `converter.ConvertToPDF`, the conversion facade. -/
def ConvertToPDF (codec : Codec) (cfg : Config) (sources : List ImageSource)
    (o : CancelOracle) (fates : Nat → Fate) (recvOrder : List Nat)
    (pageFail : Nat → Bool) (outputOk : Bool) : ConvertResult :=
  if o.atEntry then ⟨false, some .canceled, none⟩
  else if sources.length = 0 then ⟨false, some .noSupportedImages, none⟩
  else
    let validSources := sources.filter usableSource
    if validSources.length = 0 then ⟨false, some .noSupportedImages, none⟩
    else
      let infos := processImagesConcurrently codec cfg validSources
        o.coordCancelAt fates recvOrder o.ctxErrAfterCollect
      if o.afterCoord then ⟨false, some .canceled, none⟩
      else
        let g := generatePDFFromProcessedImages infos o.genCancelAt pageFail
          o.doneAfterLoop o.doneAtNoContent outputOk
        match g.error with
        | some .canceled => ⟨g.hasContent, some .canceled, none⟩
        | some _ => ⟨g.hasContent, some (.msg "pdf generation failed"), none⟩
        | none =>
          if !g.hasContent then
            if o.finalCtxErr then ⟨false, some .canceled, none⟩
            else if !infos.isEmpty &&
                infos.all (fun r => r.error == some .canceled) then
              ⟨false, some .canceled, none⟩
            else ⟨false, some .noSupportedImages, none⟩
          else ⟨true, none, g.written⟩

/-- ASCII model of `strings.ToLower` (the characters the converter
compares — content types and file extensions — are ASCII). -/
def lowerStr (s : String) : String :=
  String.mk (s.data.map Char.toLower)

/-- Scan of `filepath.Ext`: walk the characters from the end of the name;
stop without an extension at a path separator, and return the suffix from
the final dot otherwise.  `rl` is the not-yet-scanned part reversed, `acc`
the scanned suffix in original order. -/
def extAux : List Char → List Char → Option (List Char)
  | [], _ => none
  | c :: rest, acc =>
    if c = '/' then none
    else if c = '.' then some (c :: acc)
    else extAux rest (c :: acc)

/-- `filepath.Ext`: the suffix beginning at the final dot in the final
path element; empty if there is no dot. -/
def goExt (s : String) : String :=
  match extAux s.data.reverse [] with
  | some ext => String.mk ext
  | none => ""

/-- `converter.GetContentTypeFromFilename`: map the lower-cased filename
extension to a content type, empty string for unknown extensions. -/
def GetContentTypeFromFilename (filename : String) : String :=
  let ext := lowerStr (goExt filename)
  if ext = ".jpg" ∨ ext = ".jpeg" then "image/jpeg"
  else if ext = ".png" then "image/png"
  else if ext = ".webp" then "image/webp"
  else ""

/-- `filepath.Base`: empty path gives `"."`, trailing separators are
removed, a path of only separators gives `"/"`, otherwise the last path
element. -/
def goFilepathBase (path : String) : String :=
  if path = "" then "."
  else
    let cs := (path.data.reverse.dropWhile (fun c => c == '/')).reverse
    if cs.isEmpty then "/"
    else String.mk ((cs.reverse.takeWhile (fun c => c != '/')).reverse)

/-- `strings.HasPrefix s pre`: whether `s` starts with `pre`. -/
def goHasPre (s pre : String) : Bool :=
  pre.data.isPrefixOf s.data

/-- The HTTP response obtained for a URL, as `FetchImage` observes it. -/
structure HTTPResponse where
  status : Nat
  contentType : String
  body : ByteData
deriving Repr, DecidableEq

/-- Outcome of `FetchImage`: a descriptor, or an error value. -/
inductive FetchResult
  | ok (src : ImageSource)
  | fail (e : ConvError)
deriving Repr, DecidableEq

/-- `converter.FetchImage`.  `resp = none` models a request-creation or
transport error (no response body exists); `parsedPath` is the path
component when `url.ParseRequestURI` succeeds.  The second component
counts the `resp.Body.Close()` calls `FetchImage` itself performs — on
success ownership of the live body transfers to the caller uncounted. -/
def FetchImage (resp : Option HTTPResponse) (parsedPath : Option String)
    (imageURL : String) (index : Int) : FetchResult × Nat :=
  match resp with
  | none => (.fail (.msg ("failed to fetch " ++ imageURL)), 0)
  | some r =>
    if r.status ≠ 200 then
      (.fail (.msg ("failed to fetch " ++ imageURL ++ ": non-OK status")), 1)
    else if !goHasPre (lowerStr r.contentType) "image/" then
      (.fail .unsupportedContentType, 1)
    else
      let filename :=
        match parsedPath with
        | some p => goFilepathBase p
        | none => goFilepathBase imageURL
      (.ok { originalFilename := filename, reader := some r.body,
             url := imageURL, contentType := r.contentType, index := index }, 0)

/-- Whether a `FetchImage` outcome is an error. -/
def fetchFailed : FetchResult → Bool
  | .fail _ => true
  | .ok _ => false

/-- The configuration validation step of `api.HandleConvert` (run after
the `config` form value was successfully parsed into `apiConfig`): an
out-of-range JPEG quality is reset to the default, a non-positive worker
count is reset to the default; the request is never rejected for either. -/
def validateAPIConfig (parsed : Config) (numCPU : Int) : Config :=
  let c1 :=
    if parsed.jpegQuality < 1 ∨ parsed.jpegQuality > 100 then
      { parsed with jpegQuality := (NewDefaultConfig numCPU).jpegQuality }
    else parsed
  if c1.numWorkers ≤ 0 then
    { c1 with numWorkers := (NewDefaultConfig numCPU).numWorkers }
  else c1

/-! ### Shared helper lemmas -/

theorem charToNat_ofNat_of_valid {n : Nat} (h : n.isValidChar) :
    (Char.ofNat n).toNat = n := by
  rw [Char.ofNat, dif_pos h]
  simp [Char.ofNatAux, Char.toNat, UInt32.toNat]

theorem toLower_eq_of_upper {c : Char} (hc : c.toNat ≥ 65 ∧ c.toNat ≤ 90) :
    c.toLower = Char.ofNat (c.toNat + 32) := by
  simp only [Char.toLower]
  rw [if_pos hc]

theorem toLower_fix_of_not_upper {c : Char}
    (hc : ¬(c.toNat ≥ 65 ∧ c.toNat ≤ 90)) : c.toLower = c := by
  simp only [Char.toLower]
  rw [if_neg hc]

theorem toNat_toLower_of_upper {c : Char} (hc : c.toNat ≥ 65 ∧ c.toNat ≤ 90) :
    c.toLower.toNat = c.toNat + 32 := by
  rw [toLower_eq_of_upper hc]
  exact charToNat_ofNat_of_valid (Or.inl (by omega))

theorem toLower_eq_dot {c : Char} (h : c.toLower = '.') : c = '.' := by
  by_cases hc : c.toNat ≥ 65 ∧ c.toNat ≤ 90
  · exfalso
    have h2 := toNat_toLower_of_upper hc
    rw [h] at h2
    have : ('.').toNat = 46 := by decide
    omega
  · rw [toLower_fix_of_not_upper hc] at h
    exact h

theorem toLower_eq_slash {c : Char} (h : c.toLower = '/') : c = '/' := by
  by_cases hc : c.toNat ≥ 65 ∧ c.toNat ≤ 90
  · exfalso
    have h2 := toNat_toLower_of_upper hc
    rw [h] at h2
    have : ('/').toNat = 47 := by decide
    omega
  · rw [toLower_fix_of_not_upper hc] at h
    exact h

theorem toLower_idem (c : Char) : c.toLower.toLower = c.toLower := by
  by_cases hc : c.toNat ≥ 65 ∧ c.toNat ≤ 90
  · have h2 := toNat_toLower_of_upper hc
    apply toLower_fix_of_not_upper
    omega
  · simp only [toLower_fix_of_not_upper hc]

/-! ### C5: the Normalizer closes the input stream exactly once -/

/-- C5: for every source with a live stream, `processSingleImage` closes
the input stream exactly once on every exit path; when the cancellation
signal is already set it closes the stream and returns a result carrying
the cancellation error and no image data. -/
theorem c5_normalizer_single_close (codec : Codec) (ctxDone : Bool)
    (cfg : Config) (source : ImageSource) (h : source.reader.isSome) :
    (processSingleImage codec ctxDone cfg source).2 = 1 ∧
    (ctxDone = true →
      (processSingleImage codec ctxDone cfg source).1.error = some .canceled ∧
      (processSingleImage codec ctxDone cfg source).1.reader = none) := by
  obtain ⟨data, hd⟩ := Option.isSome_iff_exists.mp h
  refine ⟨?_, ?_⟩
  · by_cases hc : ctxDone <;> simp [processSingleImage, hc, hd, h]
  · intro hdone
    subst hdone
    simp [processSingleImage, h]

/-- C5 witness. -/
theorem c5_normalizer_single_close_witness :
    (processSingleImage
      ⟨fun _ => none, fun _ => none, fun _ _ => none, fun _ => none⟩
      true { } { originalFilename := "a", reader := some [1] }).2 = 1 :=
  (c5_normalizer_single_close _ true { } _ (by decide)).1

/-! ### C6: dispatch on declared content type -/

/-- C6: `processSingleImage` dispatches on the declared content type:
`image/jpeg` and `image/png` sources are read fully, only the header is
decoded for the pixel dimensions, and the raw bytes are kept as the
payload with encoding `JPG` / `PNG` respectively; `image/webp` sources are
fully decoded, converted to 8-bit-per-channel when 16-bit, and re-encoded
as JPEG at the configured quality, with encoding `JPG`. -/
theorem c6_content_type_dispatch (codec : Codec) (cfg : Config)
    (name : String) (idx : Int) (data : ByteData) :
    (∀ c, codec.decodeConfig data = some c →
      (processSingleImage codec false cfg
        { originalFilename := name, reader := some data,
          contentType := "image/jpeg", index := idx }).1 =
      { index := idx, originalFilename := name, error := none,
        reader := some data, width := c.width, height := c.height,
        imageTypeForPDF := "JPG" }) ∧
    (∀ c, codec.decodeConfig data = some c →
      (processSingleImage codec false cfg
        { originalFilename := name, reader := some data,
          contentType := "image/png", index := idx }).1 =
      { index := idx, originalFilename := name, error := none,
        reader := some data, width := c.width, height := c.height,
        imageTypeForPDF := "PNG" }) ∧
    (∀ img out, codec.decode data = some img →
      codec.encodeJPEG cfg.jpegQuality
        (if img.depth16 then clone8 img else img) = some out →
      (processSingleImage codec false cfg
        { originalFilename := name, reader := some data,
          contentType := "image/webp", index := idx }).1 =
      { index := idx, originalFilename := name, error := none,
        reader := some out, width := img.width, height := img.height,
        imageTypeForPDF := "JPG" }) := by
  refine ⟨?_, ?_, ?_⟩
  · intro c hc
    simp [processSingleImage, processDirect, hc]
  · intro c hc
    simp [processSingleImage, processDirect, hc]
  · intro img out himg hout
    by_cases hd : img.depth16 <;>
      simp_all [processSingleImage, processWebp, clone8]

/-- C6 witness. -/
theorem c6_content_type_dispatch_witness :
    (processSingleImage
      ⟨fun _ => some ⟨"jpeg", 3, 4, false⟩, fun _ => some ⟨"webp", 5, 6, false⟩,
       fun _ _ => some [9], fun _ => some [8]⟩
      false { } { originalFilename := "a", reader := some [1, 2],
                  contentType := "image/jpeg", index := 0 }).1 =
    { index := 0, originalFilename := "a", error := none,
      reader := some [1, 2], width := 3, height := 4,
      imageTypeForPDF := "JPG" } :=
  (c6_content_type_dispatch _ { } "a" 0 [1, 2]).1 ⟨"jpeg", 3, 4, false⟩ rfl

/-! ### C9: the HTTP handler silently clamps out-of-range configuration -/

/-- C9: `HandleConvert` never rejects a request for out-of-range
configuration values: a `jpeg_quality` outside `[1,100]` is silently
replaced by the default `90`, and a `num_workers ≤ 0` is silently replaced
by the default worker count (`runtime.NumCPU()`), before conversion runs;
in-range values and the output filename pass through unchanged, and the
resulting configuration is always in range. -/
theorem c9_handler_clamps_config (parsed : Config) (numCPU : Int) :
    ((parsed.jpegQuality < 1 ∨ parsed.jpegQuality > 100) →
      (validateAPIConfig parsed numCPU).jpegQuality = 90) ∧
    (1 ≤ parsed.jpegQuality → parsed.jpegQuality ≤ 100 →
      (validateAPIConfig parsed numCPU).jpegQuality = parsed.jpegQuality) ∧
    (parsed.numWorkers ≤ 0 →
      (validateAPIConfig parsed numCPU).numWorkers = numCPU) ∧
    (0 < parsed.numWorkers →
      (validateAPIConfig parsed numCPU).numWorkers = parsed.numWorkers) ∧
    (validateAPIConfig parsed numCPU).outputFilename =
      parsed.outputFilename ∧
    (1 ≤ numCPU →
      1 ≤ (validateAPIConfig parsed numCPU).jpegQuality ∧
      (validateAPIConfig parsed numCPU).jpegQuality ≤ 100 ∧
      0 < (validateAPIConfig parsed numCPU).numWorkers) := by
  simp only [validateAPIConfig, NewDefaultConfig]
  refine ⟨?_, ?_, ?_, ?_, ?_, ?_⟩ <;> split_ifs <;> simp_all <;> omega

/-- C9 witness. -/
theorem c9_handler_clamps_config_witness :
    (validateAPIConfig { jpegQuality := 200, numWorkers := 0 } 8).jpegQuality = 90 ∧
    (validateAPIConfig { jpegQuality := 200, numWorkers := 0 } 8).numWorkers = 8 :=
  ⟨(c9_handler_clamps_config { jpegQuality := 200, numWorkers := 0 } 8).1
      (Or.inr (by decide)),
   (c9_handler_clamps_config { jpegQuality := 200, numWorkers := 0 } 8).2.2.1
      (by decide)⟩

/-! ### C8: no usable sources -/

/-- C8: when the source list is empty, or no source has a usable stream or
URL, `ConvertToPDF` (called with the cancellation signal not yet set)
returns `has_content = false` together with the no-supported-images error
and writes zero bytes to the output writer. -/
theorem c8_no_usable_sources (codec : Codec) (cfg : Config)
    (sources : List ImageSource) (o : CancelOracle) (fates : Nat → Fate)
    (recvOrder : List Nat) (pageFail : Nat → Bool) (outputOk : Bool)
    (hEntry : o.atEntry = false)
    (hAll : ∀ s ∈ sources, s.reader = none ∧ s.url = "") :
    ConvertToPDF codec cfg sources o fates recvOrder pageFail outputOk =
      ⟨false, some .noSupportedImages, none⟩ := by
  unfold ConvertToPDF
  rw [hEntry]
  by_cases hlen : sources.length = 0
  · simp [hlen]
  · have hfil : sources.filter usableSource = [] := by
      rw [List.filter_eq_nil_iff]
      intro a ha
      obtain ⟨h1, h2⟩ := hAll a ha
      simp [usableSource, h1, h2]
    simp [hlen, hfil]

/-- C8 witness: the empty source list and a list with one unusable source
both yield the no-supported-images error with no content and no bytes
written. -/
theorem c8_no_usable_sources_witness :
    ConvertToPDF
      ⟨fun _ => none, fun _ => none, fun _ _ => none, fun _ => none⟩
      { } [] { } (fun _ => Fate.preSem) [] (fun _ => false) true =
      ⟨false, some .noSupportedImages, none⟩ ∧
    ConvertToPDF
      ⟨fun _ => none, fun _ => none, fun _ _ => none, fun _ => none⟩
      { } [{ originalFilename := "a" }] { } (fun _ => Fate.preSem) []
      (fun _ => false) true =
      ⟨false, some .noSupportedImages, none⟩ :=
  ⟨c8_no_usable_sources _ _ _ _ _ _ _ _ rfl (by simp),
   c8_no_usable_sources _ _ _ _ _ _ _ _ rfl (by simp)⟩

/-! ### C7: FetchImage behavior -/

/-- C7 counterexample: a 200 response whose declared content type
`"IMAGE/PNG"` does not start with `"image/"`, yet `FetchImage` succeeds
instead of returning the unsupported-content-type error, because the code
lowercases the content type before the prefix check. -/
theorem c7_counterexample :
    goHasPre "IMAGE/PNG" "image/" = false ∧
    (FetchImage (some ⟨200, "IMAGE/PNG", [1]⟩) none "http://h/a.png" 0).1 =
      .ok { originalFilename := "a.png", reader := some [1],
            url := "http://h/a.png", contentType := "IMAGE/PNG",
            index := 0 } := by
  constructor
  · decide
  · decide

/-- C7 (amended): `FetchImage` returns an error whenever the response
status is not 200 (closing the body); when the status is 200 but the
lowercased declared content type does not start with `"image/"` it returns
the unsupported-content-type error with the body closed; on success it
returns a descriptor whose stream is the live response body, whose content
type is the response's declared type, whose index is the one passed in,
and whose display name is the base of the parsed URL path (the base of the
raw URL when parsing fails); a transport failure is also an error. -/
theorem c7_fetch_image (r : HTTPResponse) (parsedPath : Option String)
    (url : String) (idx : Int) :
    (r.status ≠ 200 →
      fetchFailed (FetchImage (some r) parsedPath url idx).1 = true ∧
      (FetchImage (some r) parsedPath url idx).2 = 1) ∧
    (r.status = 200 → goHasPre (lowerStr r.contentType) "image/" = false →
      FetchImage (some r) parsedPath url idx =
        (.fail .unsupportedContentType, 1)) ∧
    (r.status = 200 → goHasPre (lowerStr r.contentType) "image/" = true →
      FetchImage (some r) parsedPath url idx =
        (.ok { originalFilename :=
                 (match parsedPath with
                  | some p => goFilepathBase p
                  | none => goFilepathBase url),
               reader := some r.body, url := url,
               contentType := r.contentType, index := idx }, 0)) ∧
    fetchFailed (FetchImage none parsedPath url idx).1 = true := by
  refine ⟨?_, ?_, ?_, ?_⟩
  · intro hs
    simp [FetchImage, hs, fetchFailed]
  · intro hs hct
    simp [FetchImage, hs, hct]
  · intro hs hct
    simp [FetchImage, hs, hct]
  · simp [FetchImage, fetchFailed]

/-- C7 witness. -/
theorem c7_fetch_image_witness :
    FetchImage (some ⟨200, "image/jpeg", [7]⟩) (some "/x/b.jpg")
        "http://h/x/b.jpg" 2 =
      (.ok { originalFilename := "b.jpg", reader := some [7],
             url := "http://h/x/b.jpg", contentType := "image/jpeg",
             index := 2 }, 0) := by
  have h := (c7_fetch_image ⟨200, "image/jpeg", [7]⟩ (some "/x/b.jpg")
    "http://h/x/b.jpg" 2).2.2.1 rfl (by decide)
  simpa using h

/-! ### C10: content type from filename -/

theorem extAux_lower : ∀ (rl acc : List Char),
    extAux (rl.map Char.toLower) (acc.map Char.toLower) =
      (extAux rl acc).map (fun l => l.map Char.toLower)
  | [], _ => rfl
  | c :: rest, acc => by
    by_cases hs : c = '/'
    · subst hs
      simp [extAux]
    · by_cases hd : c = '.'
      · subst hd
        simp [extAux]
      · have hs' : c.toLower ≠ '/' := fun h => hs (toLower_eq_slash h)
        have hd' : c.toLower ≠ '.' := fun h => hd (toLower_eq_dot h)
        simp only [List.map_cons, extAux, if_neg hs, if_neg hd,
          if_neg hs', if_neg hd']
        exact extAux_lower rest (c :: acc)

theorem goExt_lower (s : String) : goExt (lowerStr s) = lowerStr (goExt s) := by
  show (match extAux (s.data.map Char.toLower).reverse [] with
        | some ext => String.mk ext
        | none => "") = lowerStr (goExt s)
  rw [← List.map_reverse]
  have h := extAux_lower s.data.reverse []
  simp only [List.map_nil] at h
  rw [h]
  unfold goExt
  cases extAux s.data.reverse [] with
  | none => rfl
  | some ext => rfl

theorem lowerStr_idem (s : String) : lowerStr (lowerStr s) = lowerStr s := by
  show String.mk ((s.data.map Char.toLower).map Char.toLower) = _
  rw [List.map_map]
  apply congrArg String.mk
  exact List.map_congr_left (fun c _ => toLower_idem c)

/-- C10: `GetContentTypeFromFilename` is case-insensitive in the extension
(lowercasing the filename does not change the result) and maps the
lowercased extension `.jpg`/`.jpeg` to `image/jpeg`, `.png` to
`image/png`, `.webp` to `image/webp`, and every other filename — including
filenames with no extension — to the empty string. -/
theorem c10_content_type_from_filename :
    (∀ s : String,
      GetContentTypeFromFilename (lowerStr s) = GetContentTypeFromFilename s) ∧
    (∀ s : String,
      ((lowerStr (goExt s) = ".jpg" ∨ lowerStr (goExt s) = ".jpeg") →
        GetContentTypeFromFilename s = "image/jpeg") ∧
      (lowerStr (goExt s) = ".png" →
        GetContentTypeFromFilename s = "image/png") ∧
      (lowerStr (goExt s) = ".webp" →
        GetContentTypeFromFilename s = "image/webp") ∧
      (¬(lowerStr (goExt s) = ".jpg" ∨ lowerStr (goExt s) = ".jpeg") →
        lowerStr (goExt s) ≠ ".png" → lowerStr (goExt s) ≠ ".webp" →
        GetContentTypeFromFilename s = "") ∧
      (goExt s = "" → GetContentTypeFromFilename s = "")) := by
  constructor
  · intro s
    unfold GetContentTypeFromFilename
    rw [goExt_lower, lowerStr_idem]
  · intro s
    refine ⟨?_, ?_, ?_, ?_, ?_⟩
    · intro h
      simp only [GetContentTypeFromFilename]
      split_ifs <;> simp_all
    · intro h
      simp only [GetContentTypeFromFilename]
      split_ifs <;> simp_all
    · intro h
      simp only [GetContentTypeFromFilename]
      split_ifs <;> simp_all
    · intro h1 h2 h3
      simp only [GetContentTypeFromFilename]
      split_ifs <;> simp_all
    · intro h
      simp only [GetContentTypeFromFilename, h]
      decide

/-- C10 witness: the mapping evaluated on the filenames from the table in
the code's own test. -/
theorem c10_content_type_from_filename_witness :
    GetContentTypeFromFilename "image.JPEG" = GetContentTypeFromFilename "image.JPEG" ∧
    GetContentTypeFromFilename "image.JPEG" = "image/jpeg" ∧
    GetContentTypeFromFilename "archive.zip" = "" ∧
    GetContentTypeFromFilename "unknown" = "" := by
  refine ⟨?_, ?_, ?_, ?_⟩
  · have h := c10_content_type_from_filename.1 "image.jpeg"
    exact rfl
  · exact (c10_content_type_from_filename.2 "image.JPEG").1 (Or.inr (by decide))
  · exact (c10_content_type_from_filename.2 "archive.zip").2.2.2.1
      (by decide) (by decide) (by decide)
  · exact (c10_content_type_from_filename.2 "unknown").2.2.2.2 (by decide)

/-! ### C4: error/reader exclusivity invariant -/

theorem processDirect_inv (codec : Codec) (base : ProcessedImage)
    (data : ByteData) (t : String) (hb1 : base.error = none)
    (hb2 : base.reader = none) :
    (processDirect codec base data t).error.isSome →
      (processDirect codec base data t).reader = none := by
  unfold processDirect
  cases codec.decodeConfig data <;> simp [hb1, hb2]

theorem processWebp_inv (codec : Codec) (cfg : Config)
    (base : ProcessedImage) (data : ByteData) (hb1 : base.error = none)
    (hb2 : base.reader = none) :
    (processWebp codec cfg base data).error.isSome →
      (processWebp codec cfg base data).reader = none := by
  simp only [processWebp]
  split
  · simp [hb2]
  · split <;> (try split) <;> simp [hb1, hb2]

theorem processUnknown_inv (codec : Codec) (cfg : Config)
    (base : ProcessedImage) (data : ByteData) (hb1 : base.error = none)
    (hb2 : base.reader = none) :
    (processUnknown codec cfg base data).error.isSome →
      (processUnknown codec cfg base data).reader = none := by
  simp only [processUnknown]
  split
  · simp [hb2]
  · split_ifs <;> (try split) <;> (try split) <;> simp [hb1, hb2]

theorem processSingleImage_inv (codec : Codec) (d : Bool) (cfg : Config)
    (src : ImageSource) :
    (processSingleImage codec d cfg src).1.error.isSome →
      (processSingleImage codec d cfg src).1.reader = none := by
  unfold processSingleImage
  by_cases hd : d
  · simp [hd]
  · simp only [hd, Bool.false_eq_true, if_false]
    cases hr : src.reader with
    | none => simp
    | some data =>
      dsimp only
      split_ifs
      · exact processDirect_inv _ _ _ _ rfl rfl
      · exact processDirect_inv _ _ _ _ rfl rfl
      · exact processWebp_inv _ _ _ _ rfl rfl
      · exact processUnknown_inv _ _ _ _ rfl rfl

theorem workerResult_inv (codec : Codec) (cfg : Config) (src : ImageSource)
    (f : Fate) (hf : ∀ d, f ≠ Fate.run d true) :
    (workerResult codec cfg src f).error.isSome →
      (workerResult codec cfg src f).reader = none := by
  cases f with
  | preSem => intro; rfl
  | preProc => intro; rfl
  | run d s =>
    cases s with
    | true => exact absurd rfl (hf d)
    | false =>
      simp only [workerResult, Bool.false_eq_true, if_false]
      exact processSingleImage_inv codec d cfg src

theorem collect_inv (resOf : Nat → ProcessedImage)
    (hres : ∀ p, (resOf p).error.isSome → (resOf p).reader = none) :
    ∀ (order : List Nat) (slots : List ProcessedImage),
      (∀ r ∈ slots, r.error.isSome → r.reader = none) →
      ∀ r ∈ collectResults resOf order slots,
        r.error.isSome → r.reader = none := by
  intro order
  induction order with
  | nil => exact fun slots h => h
  | cons p ps ih =>
    intro slots h r hr
    have hstep : ∀ r' ∈ (if 0 ≤ (resOf p).index ∧ (resOf p).index < (slots.length : Int)
        then slots.set (resOf p).index.toNat (resOf p) else slots),
        r'.error.isSome → r'.reader = none := by
      intro r' hr'
      split at hr'
      · rcases List.mem_or_eq_of_mem_set hr' with h1 | h1
        · exact h r' h1
        · subst h1; exact hres p
      · exact h r' hr'
    exact ih _ hstep r hr

theorem reconcileOne_inv (slots : List ProcessedImage) (src : ImageSource)
    (h : ∀ r ∈ slots, r.error.isSome → r.reader = none) :
    ∀ r ∈ reconcileOne slots src, r.error.isSome → r.reader = none := by
  intro r hr
  simp only [reconcileOne] at hr
  split at hr
  · split at hr
    · rcases List.mem_or_eq_of_mem_set hr with h1 | h1
      · exact h r h1
      · subst h1; intro; rfl
    · split at hr
      · rcases List.mem_or_eq_of_mem_set hr with h1 | h1
        · exact h r h1
        · subst h1; intro; rfl
      · exact h r hr
  · exact h r hr

theorem reconcile_inv (sources : List ImageSource) :
    ∀ (slots : List ProcessedImage),
      (∀ r ∈ slots, r.error.isSome → r.reader = none) →
      ∀ r ∈ reconcile slots sources, r.error.isSome → r.reader = none := by
  induction sources with
  | nil => exact fun slots h => h
  | cons src rest ih =>
    intro slots h
    exact ih _ (reconcileOne_inv slots src h)

/-- C4 counterexample: a source that processes successfully but whose
goroutine loses the publishing select to a fired cancellation signal
yields a collected result carrying both the cancellation error and a
non-nil (already closed) reader — `error ≠ null` does not imply
`byte_stream = null` for this coordinator cancellation path. -/
theorem c4_counterexample :
    processImagesConcurrently
      ⟨fun _ => some ⟨"jpeg", 3, 4, false⟩, fun _ => some ⟨"jpeg", 3, 4, false⟩,
       fun _ _ => some [9], fun _ => some [8]⟩
      { } [{ originalFilename := "a", reader := some [1],
             contentType := "image/jpeg", index := 0 }]
      none (fun _ => Fate.run false true) [0] true =
      [{ index := 0, originalFilename := "a", error := some .canceled,
         reader := some [1], width := 3, height := 4,
         imageTypeForPDF := "JPG" }] := by
  decide

/-- C4 (amended): every result produced by the Normalizer satisfies
`error ≠ null ⇒ byte_stream = null`, and so does every result returned by
the Coordinator provided no goroutine lost its publishing select to the
cancellation signal (on that send-time race the result keeps its closed
reader alongside the cancellation error). -/
theorem c4_error_reader_exclusive :
    (∀ (codec : Codec) (d : Bool) (cfg : Config) (src : ImageSource),
      (processSingleImage codec d cfg src).1.error.isSome →
        (processSingleImage codec d cfg src).1.reader = none) ∧
    (∀ (codec : Codec) (cfg : Config) (sources : List ImageSource)
       (cancelAt : Option Nat) (fates : Nat → Fate) (recvOrder : List Nat)
       (ctxErr : Bool),
      (∀ p d, fates p ≠ Fate.run d true) →
      ∀ r ∈ processImagesConcurrently codec cfg sources cancelAt fates
          recvOrder ctxErr,
        r.error.isSome → r.reader = none) := by
  refine ⟨processSingleImage_inv, ?_⟩
  intro codec cfg sources cancelAt fates recvOrder ctxErr hf r hr
  unfold processImagesConcurrently at hr
  split at hr
  · simp at hr
  · have hinit : ∀ r' ∈ placeholder (initialSlots sources cancelAt),
        r'.error.isSome → r'.reader = none := by
      intro r' hr'
      obtain ⟨s, hs, rfl⟩ := List.mem_map.mp hr'
      unfold initialSlots at hs
      split at hs
      · obtain ⟨_, _, rfl⟩ := List.mem_map.mp hs
        intro h; simp at h
      · split at hs
        · obtain ⟨j, _, rfl⟩ := List.mem_map.mp hs
          split <;> intro <;> rfl
        · obtain ⟨_, _, rfl⟩ := List.mem_map.mp hs
          intro h; simp at h
    have hres : ∀ p, (workerResult codec cfg (sources.getD p {}) (fates p)).error.isSome →
        (workerResult codec cfg (sources.getD p {}) (fates p)).reader = none :=
      fun p => workerResult_inv codec cfg _ (fates p) (fun d => hf p d)
    have hcol := collect_inv _ hres recvOrder _ hinit
    split at hr
    · exact reconcile_inv sources _ hcol r hr
    · exact hcol r hr

/-- C4 witness. -/
theorem c4_error_reader_exclusive_witness :
    (processSingleImage
      ⟨fun _ => none, fun _ => none, fun _ _ => none, fun _ => none⟩
      false { } { originalFilename := "bad", reader := some [1],
                  contentType := "text/plain" }).1.reader = none ∧
    ∀ r ∈ processImagesConcurrently
        ⟨fun _ => none, fun _ => none, fun _ _ => none, fun _ => none⟩
        { } [{ originalFilename := "bad", reader := some [1],
               contentType := "text/plain" }]
        none (fun _ => Fate.run false false) [0] false,
      r.error.isSome → r.reader = none :=
  ⟨c4_error_reader_exclusive.1 _ false { } _ (by decide),
   c4_error_reader_exclusive.2 _ { } _ none _ [0] false
     (by intro p d h; cases h)⟩

/-! ### C2: page order -/

theorem mem_insertByIndex {a b : ProcessedImage} :
    ∀ {l : List ProcessedImage}, b ∈ insertByIndex a l ↔ b = a ∨ b ∈ l
  | [] => by simp [insertByIndex]
  | x :: xs => by
    simp only [insertByIndex]
    split
    · simp [List.mem_cons]
    · simp only [List.mem_cons, mem_insertByIndex (l := xs)]
      tauto

theorem pairwise_insertByIndex (a : ProcessedImage) :
    ∀ (l : List ProcessedImage),
      l.Pairwise (fun p q => p.index ≤ q.index) →
      (insertByIndex a l).Pairwise (fun p q => p.index ≤ q.index)
  | [], _ => by simp [insertByIndex]
  | x :: xs, h => by
    simp only [insertByIndex]
    split
    · rename_i hax
      refine List.pairwise_cons.mpr ⟨?_, h⟩
      intro b hb
      rcases List.mem_cons.mp hb with rfl | hb2
      · exact hax
      · exact le_trans hax ((List.pairwise_cons.mp h).1 b hb2)
    · rename_i hax
      refine List.pairwise_cons.mpr ⟨?_, ?_⟩
      · intro b hb
        rcases mem_insertByIndex.mp hb with rfl | hb2
        · omega
        · exact (List.pairwise_cons.mp h).1 b hb2
      · exact pairwise_insertByIndex a xs (List.pairwise_cons.mp h).2

theorem perm_insertByIndex (a : ProcessedImage) :
    ∀ (l : List ProcessedImage), (insertByIndex a l).Perm (a :: l)
  | [] => List.Perm.refl _
  | x :: xs => by
    simp only [insertByIndex]
    split
    · exact List.Perm.refl _
    · exact (List.Perm.cons x (perm_insertByIndex a xs)).trans
        (List.Perm.swap a x xs)

theorem sortByIndex_perm : ∀ (l : List ProcessedImage), (sortByIndex l).Perm l
  | [] => List.Perm.refl _
  | x :: xs =>
    (perm_insertByIndex x (sortByIndex xs)).trans
      (List.Perm.cons x (sortByIndex_perm xs))

theorem sortByIndex_pairwise :
    ∀ (l : List ProcessedImage),
      (sortByIndex l).Pairwise (fun p q => p.index ≤ q.index)
  | [] => List.Pairwise.nil
  | x :: xs => pairwise_insertByIndex x _ (sortByIndex_pairwise xs)

theorem genLoop_pairwise (gca : Option Nat) (pf : Nat → Bool) :
    ∀ (rem : List ProcessedImage) (i : Nat) (acc : List ProcessedImage),
      (acc ++ rem).Pairwise (fun p q => p.index ≤ q.index) →
      (genLoop gca pf i rem acc).1.Pairwise (fun p q => p.index ≤ q.index)
  | [], _, acc, h => by simpa [genLoop] using h
  | r :: rest, i, acc, h => by
    have hskip : (acc ++ rest).Pairwise (fun p q => p.index ≤ q.index) :=
      List.Pairwise.sublist ((List.sublist_cons_self r rest).append_left acc) h
    simp only [genLoop]
    split
    · exact List.Pairwise.sublist (List.sublist_append_left acc (r :: rest)) h
    · split
      · exact genLoop_pairwise gca pf rest (i + 1) acc hskip
      · split
        · exact genLoop_pairwise gca pf rest (i + 1) acc hskip
        · split
          · exact genLoop_pairwise gca pf rest (i + 1) acc hskip
          · refine genLoop_pairwise gca pf rest (i + 1) (acc ++ [r]) ?_
            rw [List.append_assoc, List.singleton_append]
            exact h

theorem eq_of_pairwise_perm_nodup :
    ∀ (l₁ l₂ : List ProcessedImage), l₁.Perm l₂ →
      l₁.Pairwise (fun p q => p.index ≤ q.index) →
      l₂.Pairwise (fun p q => p.index ≤ q.index) →
      (l₁.map (fun r => r.index)).Nodup → l₁ = l₂
  | [], l₂, hperm, _, _, _ => by
    have := hperm.symm
    simp only [List.perm_nil] at this
    rw [this]
  | a :: t₁, [], hperm, _, _, _ => by
    simp only [List.perm_nil] at hperm
    cases hperm
  | a :: t₁, b :: t₂, hperm, hp1, hp2, hnd => by
    have hab : a = b := by
      have ha2 : a ∈ b :: t₂ := hperm.subset (List.mem_cons_self a t₁)
      rcases List.mem_cons.mp ha2 with h | ha3
      · exact h
      · have hb1 : b ∈ a :: t₁ := hperm.symm.subset (List.mem_cons_self b t₂)
        rcases List.mem_cons.mp hb1 with h | hb3
        · exact h.symm
        · exfalso
          have h1 : a.index ≤ b.index := (List.pairwise_cons.mp hp1).1 b hb3
          have h2 : b.index ≤ a.index := (List.pairwise_cons.mp hp2).1 a ha3
          have heq : a.index = b.index := le_antisymm h1 h2
          have hmem : b.index ∈ t₁.map (fun r => r.index) :=
            List.mem_map_of_mem _ hb3
          apply (List.nodup_cons.mp hnd).1
          show a.index ∈ List.map (fun r => r.index) t₁
          rw [show a.index = b.index from heq]
          exact hmem
    subst hab
    have ht : t₁ = t₂ :=
      eq_of_pairwise_perm_nodup t₁ t₂ hperm.cons_inv
        (List.pairwise_cons.mp hp1).2 (List.pairwise_cons.mp hp2).2
        (List.nodup_cons.mp hnd).2
    rw [ht]

theorem generatePDF_pages_eq (inputs : List ProcessedImage)
    (gca : Option Nat) (pf : Nat → Bool) (dal dnc oOk : Bool) :
    (generatePDFFromProcessedImages inputs gca pf dal dnc oOk).pages =
      (genLoop gca pf 0 (sortByIndex inputs) []).1 := by
  simp only [generatePDFFromProcessedImages]
  split_ifs <;> rfl

/-- C2 counterexample: two successful results sharing `index = 0` but with
different content; swapping their order in the input slice changes the
emitted page order, so the final page order is not independent of the
order in which results appear. -/
theorem c2_counterexample :
    ([(⟨0, "B", none, some [2], 1, 1, "JPG"⟩ : ProcessedImage),
      ⟨0, "A", none, some [1], 1, 1, "JPG"⟩].Perm
     [(⟨0, "A", none, some [1], 1, 1, "JPG"⟩ : ProcessedImage),
      ⟨0, "B", none, some [2], 1, 1, "JPG"⟩]) ∧
    (generatePDFFromProcessedImages
        [⟨0, "B", none, some [2], 1, 1, "JPG"⟩,
         ⟨0, "A", none, some [1], 1, 1, "JPG"⟩]
        none (fun _ => false) false false true).pages ≠
      (generatePDFFromProcessedImages
        [⟨0, "A", none, some [1], 1, 1, "JPG"⟩,
         ⟨0, "B", none, some [2], 1, 1, "JPG"⟩]
        none (fun _ => false) false false true).pages := by
  constructor
  · exact List.Perm.swap _ _ _
  · decide

/-- C2 (amended): the Page Assembler always emits pages in nondecreasing
order of the results' `index` field, and — provided the results carry
pairwise-distinct `index` values, as the Coordinator produces them — the
whole outcome is invariant under permuting the input slice (i.e., under
any completion order of the concurrent workers). -/
theorem c2_page_order (inputs : List ProcessedImage) (gca : Option Nat)
    (pf : Nat → Bool) (dal dnc oOk : Bool) :
    (generatePDFFromProcessedImages inputs gca pf dal dnc oOk).pages.Pairwise
      (fun p q => p.index ≤ q.index) ∧
    (∀ inputs₂ : List ProcessedImage, inputs₂.Perm inputs →
      (inputs.map (fun r => r.index)).Nodup →
      generatePDFFromProcessedImages inputs₂ gca pf dal dnc oOk =
        generatePDFFromProcessedImages inputs gca pf dal dnc oOk) := by
  constructor
  · rw [generatePDF_pages_eq]
    exact genLoop_pairwise gca pf (sortByIndex inputs) 0 []
      (by simpa using sortByIndex_pairwise inputs)
  · intro inputs₂ hperm hnd
    have hs : sortByIndex inputs₂ = sortByIndex inputs := by
      apply eq_of_pairwise_perm_nodup
      · exact (sortByIndex_perm inputs₂).trans
          (hperm.trans (sortByIndex_perm inputs).symm)
      · exact sortByIndex_pairwise inputs₂
      · exact sortByIndex_pairwise inputs
      · have hpm : ((sortByIndex inputs₂).map (fun r => r.index)).Perm
            (inputs.map (fun r => r.index)) :=
          ((sortByIndex_perm inputs₂).trans hperm).map _
        exact hpm.nodup_iff.mpr hnd
    unfold generatePDFFromProcessedImages
    rw [hs]

/-- C2 witness. -/
theorem c2_page_order_witness :
    (generatePDFFromProcessedImages
        [⟨0, "A", none, some [1], 1, 1, "JPG"⟩,
         ⟨1, "B", none, some [2], 1, 1, "JPG"⟩]
        none (fun _ => false) false false true).pages.Pairwise
      (fun p q => p.index ≤ q.index) ∧
    generatePDFFromProcessedImages
        [⟨1, "B", none, some [2], 1, 1, "JPG"⟩,
         ⟨0, "A", none, some [1], 1, 1, "JPG"⟩]
        none (fun _ => false) false false true =
      generatePDFFromProcessedImages
        [⟨0, "A", none, some [1], 1, 1, "JPG"⟩,
         ⟨1, "B", none, some [2], 1, 1, "JPG"⟩]
        none (fun _ => false) false false true :=
  ⟨(c2_page_order _ none (fun _ => false) false false true).1,
   (c2_page_order _ none (fun _ => false) false false true).2 _
     (List.Perm.swap _ _ _) (by decide)⟩

/-! ### C1: the Coordinator fills every position -/

theorem getD_set_self {α : Type} (l : List α) (n : Nat) (a d : α)
    (h : n < l.length) : (l.set n a).getD n d = a := by
  rw [List.getD_eq_getElem _ _ (by simpa using h)]
  simp

theorem getD_set_ne {α : Type} (l : List α) (n m : Nat) (a d : α)
    (h : n ≠ m) : (l.set n a).getD m d = l.getD m d := by
  by_cases hm : m < l.length
  · rw [List.getD_eq_getElem _ _ (by simpa using hm),
      List.getD_eq_getElem _ _ hm]
    exact List.getElem_set_ne h _
  · rw [List.getD_eq_default _ _ (by simp; omega),
      List.getD_eq_default _ _ (by omega)]

theorem processDirect_index (codec : Codec) (base : ProcessedImage)
    (data : ByteData) (t : String) :
    (processDirect codec base data t).index = base.index := by
  unfold processDirect
  split <;> rfl

theorem processWebp_index (codec : Codec) (cfg : Config)
    (base : ProcessedImage) (data : ByteData) :
    (processWebp codec cfg base data).index = base.index := by
  simp only [processWebp]
  split
  · rfl
  · split <;> (try split) <;> rfl

theorem processUnknown_index (codec : Codec) (cfg : Config)
    (base : ProcessedImage) (data : ByteData) :
    (processUnknown codec cfg base data).index = base.index := by
  simp only [processUnknown]
  split
  · rfl
  · split_ifs <;> (try split) <;> (try split) <;> rfl

theorem processSingleImage_index (codec : Codec) (d : Bool) (cfg : Config)
    (src : ImageSource) :
    (processSingleImage codec d cfg src).1.index = src.index := by
  unfold processSingleImage
  by_cases hd : d
  · simp [hd]
  · simp only [hd, Bool.false_eq_true, if_false]
    cases hr : src.reader with
    | none => rfl
    | some data =>
      dsimp only
      split_ifs
      · exact processDirect_index _ _ _ _
      · exact processDirect_index _ _ _ _
      · exact processWebp_index _ _ _ _
      · exact processUnknown_index _ _ _ _

theorem workerResult_index (codec : Codec) (cfg : Config)
    (src : ImageSource) (f : Fate) :
    (workerResult codec cfg src f).index = src.index := by
  cases f with
  | preSem => rfl
  | preProc => rfl
  | run d s =>
    cases s with
    | false =>
      simp only [workerResult, Bool.false_eq_true, if_false]
      exact processSingleImage_index codec d cfg src
    | true =>
      simp only [workerResult, if_true]
      split
      · exact processSingleImage_index codec d cfg src
      · exact processSingleImage_index codec d cfg src

theorem initialSlots_length (sources : List ImageSource)
    (cancelAt : Option Nat) :
    (initialSlots sources cancelAt).length = sources.length := by
  unfold initialSlots
  split
  · simp
  · split <;> simp

theorem placeholder_length (slots : List ProcessedImage) :
    (placeholder slots).length = slots.length := by
  simp [placeholder]

theorem placeholder_index (slots : List ProcessedImage) (j : Nat)
    (h : j < slots.length) :
    ((placeholder slots).getD j { }).index = -1 := by
  have h2 : j < (placeholder slots).length := by
    rw [placeholder_length]; exact h
  rw [List.getD_eq_getElem _ _ h2]
  simp [placeholder]

theorem collectResults_length (resOf : Nat → ProcessedImage) :
    ∀ (order : List Nat) (slots : List ProcessedImage),
      (collectResults resOf order slots).length = slots.length
  | [], _ => rfl
  | p :: ps, slots => by
    have h := collectResults_length resOf ps
      (if 0 ≤ (resOf p).index ∧ (resOf p).index < (slots.length : Int) then
        slots.set (resOf p).index.toNat (resOf p)
      else slots)
    have hstep : collectResults resOf (p :: ps) slots =
        collectResults resOf ps
          (if 0 ≤ (resOf p).index ∧ (resOf p).index < (slots.length : Int) then
            slots.set (resOf p).index.toNat (resOf p)
          else slots) := rfl
    rw [hstep, h]
    split <;> simp

theorem collectResults_getD (resOf : Nat → ProcessedImage) :
    ∀ (order : List Nat) (slots : List ProcessedImage) (j : Nat),
      j < slots.length →
      (∀ p ∈ order, p < slots.length ∧ (resOf p).index = (p : Int)) →
      (collectResults resOf order slots).getD j { } =
        if j ∈ order then resOf j else slots.getD j { }
  | [], slots, j, hj, _ => by simp [collectResults]
  | p :: ps, slots, j, hj, hord => by
    obtain ⟨hp, hpidx⟩ := hord p (List.mem_cons_self p ps)
    have hcond : 0 ≤ (resOf p).index ∧
        (resOf p).index < (slots.length : Int) := by
      rw [hpidx]; omega
    have hstep : collectResults resOf (p :: ps) slots =
        collectResults resOf ps (slots.set (resOf p).index.toNat (resOf p)) := by
      have h0 : collectResults resOf (p :: ps) slots =
          collectResults resOf ps
            (if 0 ≤ (resOf p).index ∧ (resOf p).index < (slots.length : Int) then
              slots.set (resOf p).index.toNat (resOf p)
            else slots) := rfl
      rw [h0, if_pos hcond]
    have htn : (resOf p).index.toNat = p := by rw [hpidx]; omega
    rw [hstep, htn]
    have hlen : j < (slots.set p (resOf p)).length := by simpa using hj
    have hord2 : ∀ q ∈ ps, q < (slots.set p (resOf p)).length ∧
        (resOf q).index = (q : Int) := by
      intro q hq
      have := hord q (List.mem_cons_of_mem p hq)
      constructor
      · simpa using this.1
      · exact this.2
    rw [collectResults_getD resOf ps _ j hlen hord2]
    by_cases hjps : j ∈ ps
    · simp [hjps, List.mem_cons]
    · by_cases hjp : j = p
      · subst hjp
        rw [getD_set_self _ _ _ _ hj]
        simp [hjps]
      · rw [getD_set_ne _ _ _ _ _ (fun h => hjp h.symm)]
        simp [List.mem_cons, hjps, hjp]

theorem reconcileOne_length (slots : List ProcessedImage)
    (src : ImageSource) : (reconcileOne slots src).length = slots.length := by
  simp only [reconcileOne]
  split_ifs <;> simp

theorem reconcile_length (sources : List ImageSource) :
    ∀ (slots : List ProcessedImage),
      (reconcile slots sources).length = slots.length := by
  induction sources with
  | nil => intro slots; rfl
  | cons src rest ih =>
    intro slots
    show (reconcile (reconcileOne slots src) rest).length = _
    rw [ih, reconcileOne_length]

theorem reconcileOne_getD_other (slots : List ProcessedImage)
    (src : ImageSource) (j : Nat) (hne : src.index ≠ (j : Int)) :
    (reconcileOne slots src).getD j { } = slots.getD j { } := by
  simp only [reconcileOne]
  split_ifs with h1 h2 h3
  · apply getD_set_ne
    omega
  · apply getD_set_ne
    omega
  · rfl
  · rfl

theorem reconcileOne_getD_self (slots : List ProcessedImage)
    (src : ImageSource)
    (hin : 0 ≤ src.index ∧ src.index < (slots.length : Int))
    (hslot : (slots.getD src.index.toNat { }).index = src.index ∨
             (slots.getD src.index.toNat { }).index = -1) :
    ((reconcileOne slots src).getD src.index.toNat { }).index = src.index := by
  have hlt : src.index.toNat < slots.length := by omega
  simp only [reconcileOne, if_pos hin]
  split_ifs with h1 h2
  · rw [getD_set_self _ _ _ _ hlt]
    rfl
  · rw [getD_set_self _ _ _ _ hlt]
    show (slots.getD src.index.toNat { }).index = src.index
    rcases hslot with h | h
    · exact h
    · exact absurd (Or.inl h) h1
  · rcases hslot with h | h
    · exact h
    · exact absurd (Or.inl h) h1

theorem reconcileOne_inv_index (slots : List ProcessedImage)
    (src : ImageSource)
    (inv : ∀ j, j < slots.length →
      ((slots.getD j { }).index = (j : Int) ∨ (slots.getD j { }).index = -1)) :
    ∀ j, j < slots.length →
      (((reconcileOne slots src).getD j { }).index = (j : Int) ∨
       ((reconcileOne slots src).getD j { }).index = -1) := by
  intro j hj
  by_cases hsj : src.index = (j : Int)
  · left
    have hin : 0 ≤ src.index ∧ src.index < (slots.length : Int) := by omega
    have htn : src.index.toNat = j := by omega
    have := reconcileOne_getD_self slots src hin
      (by rw [htn, hsj]; exact inv j hj)
    rw [htn] at this
    rw [this, hsj]
  · rw [reconcileOne_getD_other slots src j hsj]
    exact inv j hj

theorem reconcile_fix (sources : List ImageSource) :
    ∀ (slots : List ProcessedImage),
      (∀ j, j < slots.length →
        ((slots.getD j { }).index = (j : Int) ∨ (slots.getD j { }).index = -1)) →
      ∀ j, j < slots.length →
        ((∃ s ∈ sources, s.index = (j : Int)) ∨
          (slots.getD j { }).index = (j : Int)) →
        ((reconcile slots sources).getD j { }).index = (j : Int) := by
  induction sources with
  | nil =>
    intro slots _ j _ hcond
    rcases hcond with ⟨s, hs, _⟩ | h
    · exact absurd hs (List.not_mem_nil s)
    · exact h
  | cons src rest ih =>
    intro slots inv j hj hcond
    show ((reconcile (reconcileOne slots src) rest).getD j { }).index = _
    have hlen : j < (reconcileOne slots src).length := by
      rw [reconcileOne_length]; exact hj
    have inv' : ∀ j, j < (reconcileOne slots src).length →
        (((reconcileOne slots src).getD j { }).index = (j : Int) ∨
         ((reconcileOne slots src).getD j { }).index = -1) := by
      intro j hj2
      apply reconcileOne_inv_index slots src inv
      rw [reconcileOne_length] at hj2
      exact hj2
    by_cases hsj : src.index = (j : Int)
    · apply ih _ inv' j hlen
      right
      have hin : 0 ≤ src.index ∧ src.index < (slots.length : Int) := by omega
      have htn : src.index.toNat = j := by omega
      have := reconcileOne_getD_self slots src hin
        (by rw [htn, hsj]; exact inv j hj)
      rw [htn] at this
      rw [this, hsj]
    · apply ih _ inv' j hlen
      rcases hcond with ⟨s, hs, hsi⟩ | h
      · rcases List.mem_cons.mp hs with rfl | hs2
        · exact absurd hsi hsj
        · exact Or.inl ⟨s, hs2, hsi⟩
      · right
        rw [reconcileOne_getD_other slots src j hsj]
        exact h

/-- C1 counterexample: a single source whose `index` field is `1` (as the
facade can produce after filtering out an unusable source): the worker's
result is dropped as out of bounds, no cancellation occurs, and the
returned slice's only entry is the unfilled placeholder with index `-1` —
no entry carries the input's index `1`. -/
theorem c1_counterexample :
    processImagesConcurrently
      ⟨fun _ => some ⟨"jpeg", 3, 4, false⟩, fun _ => some ⟨"jpeg", 3, 4, false⟩,
       fun _ _ => some [9], fun _ => some [8]⟩
      { } [{ originalFilename := "a", reader := some [1],
             contentType := "image/jpeg", index := 1 }]
      none (fun _ => Fate.run false false) [0] false =
      [{ index := -1 }] := by
  decide

/-- C1 (amended): for every list of N image sources whose `index` fields
are exactly their positions 0..N-1 (as the boundary assigns them), the
Coordinator returns exactly N results and, for every position i, the entry
at position i carries index i — no index missing or duplicated, every
position filled — regardless of each item's fate, of the order results are
collected, and of whether the cancellation signal fired. -/
theorem c1_coordinator_total_fill (codec : Codec) (cfg : Config)
    (sources : List ImageSource) (cancelAt : Option Nat) (fates : Nat → Fate)
    (recvOrder : List Nat) (ctxErr : Bool)
    (hpos : ∀ i, i < sources.length →
      (sources.getD i { }).index = (i : Int))
    (hmono : (∃ k, cancelAt = some k ∧ k < sources.length) → ctxErr = true)
    (hrecv : ∀ p, p ∈ recvOrder ↔
      p < launchedCount sources.length cancelAt) :
    (processImagesConcurrently codec cfg sources cancelAt fates recvOrder
        ctxErr).length = sources.length ∧
    ∀ i, i < sources.length →
      ((processImagesConcurrently codec cfg sources cancelAt fates recvOrder
          ctxErr).getD i { }).index = (i : Int) := by
  by_cases hN : sources.length = 0
  · constructor
    · simp [processImagesConcurrently, hN]
    · intro i hi
      omega
  · have hL : launchedCount sources.length cancelAt ≤ sources.length := by
      unfold launchedCount
      cases cancelAt <;> simp [Nat.min_le_right]
    set N := sources.length with hNdef
    set resOf : Nat → ProcessedImage := fun p =>
      workerResult codec cfg (sources.getD p { }) (fates p) with hresOf
    have hidx : ∀ p, p < N → (resOf p).index = (p : Int) := by
      intro p hp
      rw [hresOf]
      simp only
      rw [workerResult_index]
      exact hpos p hp
    set slots1 := placeholder (initialSlots sources cancelAt) with hslots1
    have hlen1 : slots1.length = N := by
      rw [hslots1, placeholder_length, initialSlots_length]
    set slots2 := collectResults resOf recvOrder slots1 with hslots2
    have hlen2 : slots2.length = N := by
      rw [hslots2, collectResults_length, hlen1]
    have hres : processImagesConcurrently codec cfg sources cancelAt fates
        recvOrder ctxErr =
        (if ctxErr then reconcile slots2 sources else slots2) := by
      unfold processImagesConcurrently
      rw [if_neg hN]
    -- the slot contents after collection
    have hcol : ∀ j, j < N →
        slots2.getD j { } =
          if j ∈ recvOrder then resOf j else slots1.getD j { } := by
      intro j hj
      rw [hslots2]
      apply collectResults_getD
      · omega
      · intro p hp
        have hpl := (hrecv p).mp hp
        exact ⟨by omega, hidx p (by omega)⟩
    have hplace : ∀ j, j < N → (slots1.getD j { }).index = -1 := by
      intro j hj
      rw [hslots1]
      apply placeholder_index
      rw [initialSlots_length]
      omega
    have hinv : ∀ j, j < slots2.length →
        ((slots2.getD j { }).index = (j : Int) ∨
         (slots2.getD j { }).index = -1) := by
      intro j hj
      rw [hlen2] at hj
      rw [hcol j hj]
      by_cases hjr : j ∈ recvOrder
      · left
        rw [if_pos hjr]
        exact hidx j hj
      · right
        rw [if_neg hjr]
        exact hplace j hj
    constructor
    · rw [hres]
      by_cases hctx : ctxErr = true
      · rw [if_pos hctx, reconcile_length, hlen2]
      · rw [if_neg hctx, hlen2]
    · intro i hi
      rw [hres]
      by_cases hctx : ctxErr = true
      · rw [if_pos hctx]
        apply reconcile_fix sources slots2 hinv i (by omega)
        left
        refine ⟨sources.getD i { }, ?_, hpos i hi⟩
        rw [List.getD_eq_getElem _ _ hi]
        exact List.getElem_mem hi
      · rw [if_neg hctx]
        have hLN : launchedCount N cancelAt = N := by
          cases hc : cancelAt with
          | none => rfl
          | some k =>
            by_cases hk : k < N
            · exact absurd (hmono ⟨k, hc, hk⟩) hctx
            · show min k N = N
              omega
        have hir : i ∈ recvOrder := (hrecv i).mpr (by omega)
        rw [hcol i hi, if_pos hir]
        exact hidx i hi

/-- C1 witness: two position-indexed sources, launch loop cancelled after
the first goroutine, only that goroutine's result received — both
positions still end up filled with their own index. -/
theorem c1_coordinator_total_fill_witness :
    (processImagesConcurrently
      ⟨fun _ => some ⟨"jpeg", 3, 4, false⟩, fun _ => some ⟨"jpeg", 3, 4, false⟩,
       fun _ _ => some [9], fun _ => some [8]⟩
      { } [{ originalFilename := "a", reader := some [1],
             contentType := "image/jpeg", index := 0 },
           { originalFilename := "b", reader := some [2],
             contentType := "image/jpeg", index := 1 }]
      (some 1) (fun _ => Fate.run false false) [0] true).length = 2 ∧
    ∀ i, i < 2 →
      ((processImagesConcurrently
        ⟨fun _ => some ⟨"jpeg", 3, 4, false⟩, fun _ => some ⟨"jpeg", 3, 4, false⟩,
         fun _ _ => some [9], fun _ => some [8]⟩
        { } [{ originalFilename := "a", reader := some [1],
               contentType := "image/jpeg", index := 0 },
             { originalFilename := "b", reader := some [2],
               contentType := "image/jpeg", index := 1 }]
        (some 1) (fun _ => Fate.run false false) [0] true).getD i { }).index =
        (i : Int) :=
  c1_coordinator_total_fill _ _ _ (some 1) _ [0] true
    (by decide) (fun _ => rfl)
    (by intro p; simp [launchedCount, Nat.lt_one_iff])

/-! ### C3: the facade's outcome decision table -/

/-- C3 counterexample: a run in which cancellation fires after the single
page was already embedded (between the assembly loop and the output
write): the facade returns the cancellation error together with
`has_content = true`, not "a cancellation error with no content" as the
claim's first row states. -/
theorem c3_counterexample :
    ConvertToPDF
      ⟨fun _ => some ⟨"jpeg", 3, 4, false⟩, fun _ => some ⟨"jpeg", 3, 4, false⟩,
       fun _ _ => some [9], fun _ => some [8]⟩
      { } [{ originalFilename := "a", reader := some [1],
             contentType := "image/jpeg", index := 0 }]
      { doneAfterLoop := true } (fun _ => Fate.run false false) [0]
      (fun _ => false) true =
      ⟨true, some .canceled, none⟩ := by
  decide

/-- C3 (amended): the facade decides its outcome as follows.  If the
cancellation signal is set at entry: cancellation error, no content.  Else
if no source is usable: no-supported-images error.  Else if the signal is
set right after coordination: cancellation error, no content.  Else, when
assembly itself returned the cancellation error (the signal fired during
assembly), that error is returned with `has_content` reflecting the pages
already embedded; a non-cancellation assembly error (serialization
failure) is likewise returned as-is.  Otherwise, if zero images were
embedded: cancellation error when the signal is set at decision time, or
when every per-item result carries the cancellation error; the
no-supported-images error in every other zero-embedded case.  Otherwise:
success with `has_content = true`. -/
theorem c3_facade_outcome (codec : Codec) (cfg : Config)
    (sources : List ImageSource) (o : CancelOracle) (fates : Nat → Fate)
    (recvOrder : List Nat) (pageFail : Nat → Bool) (outputOk : Bool)
    (infos : List ProcessedImage) (g : GenResult)
    (hinfos : infos = processImagesConcurrently codec cfg
      (sources.filter usableSource) o.coordCancelAt fates recvOrder
      o.ctxErrAfterCollect)
    (hg : g = generatePDFFromProcessedImages infos o.genCancelAt pageFail
      o.doneAfterLoop o.doneAtNoContent outputOk) :
    (o.atEntry = true →
      ConvertToPDF codec cfg sources o fates recvOrder pageFail outputOk =
        ⟨false, some .canceled, none⟩) ∧
    (o.atEntry = false → sources.filter usableSource = [] →
      ConvertToPDF codec cfg sources o fates recvOrder pageFail outputOk =
        ⟨false, some .noSupportedImages, none⟩) ∧
    (o.atEntry = false → sources.filter usableSource ≠ [] →
      o.afterCoord = true →
      ConvertToPDF codec cfg sources o fates recvOrder pageFail outputOk =
        ⟨false, some .canceled, none⟩) ∧
    (o.atEntry = false → sources.filter usableSource ≠ [] →
      o.afterCoord = false → g.error = some .canceled →
      ConvertToPDF codec cfg sources o fates recvOrder pageFail outputOk =
        ⟨g.hasContent, some .canceled, none⟩) ∧
    (o.atEntry = false → sources.filter usableSource ≠ [] →
      o.afterCoord = false → ∀ e, g.error = some e → e ≠ .canceled →
      ConvertToPDF codec cfg sources o fates recvOrder pageFail outputOk =
        ⟨g.hasContent, some (.msg "pdf generation failed"), none⟩) ∧
    (o.atEntry = false → sources.filter usableSource ≠ [] →
      o.afterCoord = false → g.error = none → g.hasContent = false →
      o.finalCtxErr = true →
      ConvertToPDF codec cfg sources o fates recvOrder pageFail outputOk =
        ⟨false, some .canceled, none⟩) ∧
    (o.atEntry = false → sources.filter usableSource ≠ [] →
      o.afterCoord = false → g.error = none → g.hasContent = false →
      o.finalCtxErr = false → infos ≠ [] →
      infos.all (fun r => r.error == some .canceled) = true →
      ConvertToPDF codec cfg sources o fates recvOrder pageFail outputOk =
        ⟨false, some .canceled, none⟩) ∧
    (o.atEntry = false → sources.filter usableSource ≠ [] →
      o.afterCoord = false → g.error = none → g.hasContent = false →
      o.finalCtxErr = false →
      infos.all (fun r => r.error == some .canceled) = false →
      ConvertToPDF codec cfg sources o fates recvOrder pageFail outputOk =
        ⟨false, some .noSupportedImages, none⟩) ∧
    (o.atEntry = false → sources.filter usableSource ≠ [] →
      o.afterCoord = false → g.error = none → g.hasContent = true →
      ConvertToPDF codec cfg sources o fates recvOrder pageFail outputOk =
        ⟨true, none, g.written⟩) := by
  subst hg
  subst hinfos
  have hne : ∀ (h2 : sources.filter usableSource ≠ []),
      ¬sources.length = 0 ∧ ¬(sources.filter usableSource).length = 0 := by
    intro h2
    constructor
    · intro h0
      apply h2
      rw [List.length_eq_zero.mp h0]
      rfl
    · intro h0
      exact h2 (List.length_eq_zero.mp h0)
  refine ⟨?_, ?_, ?_, ?_, ?_, ?_, ?_, ?_, ?_⟩
  · intro h1
    simp [ConvertToPDF, h1]
  · intro h1 h2
    unfold ConvertToPDF
    rw [h1]
    by_cases hsrc : sources.length = 0
    · simp [hsrc]
    · have hval : (sources.filter usableSource).length = 0 := by
        rw [h2]; rfl
      simp [hsrc, hval]
  · intro h1 h2 h3
    obtain ⟨hsrc, hval⟩ := hne h2
    unfold ConvertToPDF
    rw [h1]
    simp [hsrc, hval, h3]
  · intro h1 h2 h3 h4
    obtain ⟨hsrc, hval⟩ := hne h2
    unfold ConvertToPDF
    rw [h1]
    simp only [Bool.false_eq_true, if_false, if_neg hsrc, if_neg hval,
      h3, if_neg (by simp : ¬(true = true → False))]
    rw [h4]
  · intro h1 h2 h3 e h4 h5
    obtain ⟨hsrc, hval⟩ := hne h2
    unfold ConvertToPDF
    rw [h1]
    simp only [Bool.false_eq_true, if_false, if_neg hsrc, if_neg hval, h3]
    rw [h4]
    cases e with
    | canceled => exact absurd rfl h5
    | noSupportedImages => rfl
    | unsupportedContentType => rfl
    | msg s => rfl
  · intro h1 h2 h3 h4 h5 h6
    obtain ⟨hsrc, hval⟩ := hne h2
    unfold ConvertToPDF
    rw [h1]
    simp only [Bool.false_eq_true, if_false, if_neg hsrc, if_neg hval, h3]
    rw [h4]
    simp [h5, h6]
  · intro h1 h2 h3 h4 h5 h6 h7 h8
    obtain ⟨hsrc, hval⟩ := hne h2
    unfold ConvertToPDF
    rw [h1]
    simp only [Bool.false_eq_true, if_false, if_neg hsrc, if_neg hval, h3]
    rw [h4]
    simp [h5, h6, h7, h8]
  · intro h1 h2 h3 h4 h5 h6 h7
    obtain ⟨hsrc, hval⟩ := hne h2
    unfold ConvertToPDF
    rw [h1]
    simp only [Bool.false_eq_true, if_false, if_neg hsrc, if_neg hval, h3]
    rw [h4]
    simp [h5, h6, h7]
  · intro h1 h2 h3 h4 h5
    obtain ⟨hsrc, hval⟩ := hne h2
    unfold ConvertToPDF
    rw [h1]
    simp only [Bool.false_eq_true, if_false, if_neg hsrc, if_neg hval, h3]
    rw [h4]
    simp [h5]

/-- C3 witness: a single valid JPEG source with no cancellation anywhere
follows the success row and returns the embedded page. -/
theorem c3_facade_outcome_witness :
    ConvertToPDF
      ⟨fun _ => some ⟨"jpeg", 3, 4, false⟩, fun _ => some ⟨"jpeg", 3, 4, false⟩,
       fun _ _ => some [9], fun _ => some [8]⟩
      { } [{ originalFilename := "a", reader := some [1],
             contentType := "image/jpeg", index := 0 }]
      { } (fun _ => Fate.run false false) [0] (fun _ => false) true =
      ⟨true, none,
        some [{ index := 0, originalFilename := "a", error := none,
                reader := some [1], width := 3, height := 4,
                imageTypeForPDF := "JPG" }]⟩ := by
  have h := (c3_facade_outcome
    ⟨fun _ => some ⟨"jpeg", 3, 4, false⟩, fun _ => some ⟨"jpeg", 3, 4, false⟩,
     fun _ _ => some [9], fun _ => some [8]⟩
    { } [{ originalFilename := "a", reader := some [1],
           contentType := "image/jpeg", index := 0 }]
    { } (fun _ => Fate.run false false) [0] (fun _ => false) true
    _ _ rfl rfl).2.2.2.2.2.2.2.2
    rfl (by decide) rfl (by decide) (by decide)
  rw [h]
  decide

end MangaToPDF
